import Mathlib

/-!
Shallow embedding of `warp_journal/util.py` (resource-resolution pipeline of
Warp Journal): game-path discovery, web-cache location, and port allocation.
Filesystem, environment variables and sockets are modelled as explicit
parameters; Python exceptions are modelled with `Except`.
-/

deriving instance DecidableEq for Except

namespace WarpJournal

/-- The values of `sys.platform` distinguished by the code. -/
inductive Platform where
  | win32
  | linux
  | darwin
  | other
deriving DecidableEq

/-- A Python value that may flow through the path pipeline: either a
`pathlib.Path` or a plain `str` (the two differ under the `/` operator). -/
inductive PyVal where
  | path (s : String)
  | str (s : String)
deriving DecidableEq

/-- Outcome of `panic`: it logs the message at error level, shows the
error dialog, and calls `sys.exit(1)`. -/
structure PanicOutcome where
  loggedError : String
  dialogShown : Bool
  exitCode : Nat
deriving DecidableEq

/-- `panic(message)`: `logging.error(message); show_error_dialog(message);
sys.exit(1)`. -/
def panic (message : String) : PanicOutcome :=
  { loggedError := message, dialogShown := true, exitCode := 1 }

/-- Python exceptions that the embedded code can raise. `sysExit` stands for
the `SystemExit` raised by `panic`'s `sys.exit(1)`. -/
inductive PyErr where
  | typeError
  | fileNotFoundError
  | keyError
  | sysExit (outcome : PanicOutcome)
deriving DecidableEq

/-- A JSON value as far as the launcher config is concerned: an object or a
string leaf. -/
inductive Json where
  | obj (fields : List (String × Json))
  | str (s : String)

/-- `j[key]` on a JSON value: on an object, `.ok none` models a `KeyError`
(always caught at the use site), `.ok (some v)` a successful lookup; indexing
a string with a string key raises `TypeError`. -/
def jget : Json → String → Except PyErr (Option Json)
  | .obj fields, key => .ok (fields.lookup key)
  | .str _, _ => .error .typeError

/-- `Path(v)` applied to a JSON value: a string becomes a path, anything else
raises `TypeError`. -/
def pyPathOf : Json → Except PyErr String
  | .str s => .ok s
  | .obj _ => .error .typeError

/-- One entry of a directory listing (`Path.iterdir`): its name and whether it
is a directory. -/
structure Entry where
  name : String
  isDir : Bool
deriving DecidableEq

/-- The ambient state the functions read: `sys.platform`, environment
variables, and the filesystem (`readLines path = none` / `listDir path = none`
model a missing file / directory; `hsrConfig = none` models a missing launcher
config file, `some j` its parsed JSON content). -/
structure Env where
  platform : Platform
  gamePathVar : Option String
  userprofile : Option String
  appdata : Option String
  xdgDataHome : Option String
  home : String
  readLines : String → Option (List String)
  hsrConfig : Option Json
  pathExists : String → Bool
  listDir : String → Option (List Entry)
  mkdirFileConflict : String → Bool
  powershellCopyOk : String → String → Bool

/-- Drop a final `'/'` from a character list, if present. -/
def dropTrailingSlash (l : List Char) : List Char :=
  match l.reverse with
  | '/' :: r => r.reverse
  | _ => l

/-- `pathlib`'s `/` on two path strings (a trailing slash on the right
operand, as in `'StarRail_Data/webCaches/'`, is dropped). -/
def pjoin (a b : String) : String :=
  String.mk (a.toList ++ '/' :: dropTrailingSlash b.toList)

/-- `game_path / rhs`: defined on a `Path`, raises `TypeError` when the left
operand is a plain `str` (strings do not implement `/`). -/
def pyDiv : PyVal → String → Except PyErr String
  | .path a, b => .ok (pjoin a b)
  | .str _, _ => .error .typeError

/-- Python truthiness of `get_game_path()`'s result: `None` and the empty
string are falsy, `Path` objects are always truthy. -/
def pyFalsyOpt : Option PyVal → Bool
  | none => true
  | some (.str s) => s = ""
  | some (.path _) => false

/-- The per-platform branch of `get_data_path()` choosing the base data
directory (`KeyError` when `APPDATA` is missing on Windows; panic on an
unsupported platform). -/
def dataPathRaw (env : Env) : Except PyErr String :=
  match env.platform with
  | .win32 =>
    match env.appdata with
    | none => .error .keyError
    | some a => .ok (pjoin a "warp-journal")
  | .linux =>
    match env.xdgDataHome with
    | some x => .ok (pjoin x "warp-journal")
    | none => .ok (pjoin env.home ".local/share/warp-journal")
  | .darwin =>
    match env.xdgDataHome with
    | some x => .ok (pjoin x "warp-journal")
    | none => .ok (pjoin env.home "Library/Application Support/warp-journal")
  | .other =>
    .error (.sysExit (panic "Warp Journal is only designed to run on Windows or Linux-based systems."))

/-- `get_data_path()`: per-platform base data directory; creates it
(`mkdirFileConflict` models `FileExistsError` from `mkdir`, turned into a
panic). -/
def get_data_path (env : Env) : Except PyErr String :=
  match dataPathRaw env with
  | .error e => .error e
  | .ok path =>
    if env.mkdirFileConflict path then
      .error (.sysExit (panic (path ++ " already exists, but is a file.")))
    else
      .ok path

/-! ### The Player.log regex

`re.compile('Loading player data from (.+)/StarRail_Data/data.unity3d')`,
used via `regex.search(line)`: leftmost match position, greedy `(.+)` (longest
group first), `.` matching any character except a newline. -/

/-- The literal part of the pattern before the capture group. -/
def litLoading : List Char := "Loading player data from ".toList

/-- The literal part of the pattern between the group and the `.` wildcard. -/
def litStarRailData : List Char := "/StarRail_Data/data".toList

/-- The literal part of the pattern after the `.` wildcard. -/
def litUnity3d : List Char := "unity3d".toList

/-- The regex metacharacter `.`: any character but a newline. -/
def matchesDot (c : Char) : Bool := c ≠ '\n'

/-- Does `l` start with `/StarRail_Data/data` followed by any non-newline
character followed by `unity3d` (the part of the pattern after the group)? -/
def tailMatches (l : List Char) : Bool :=
  litStarRailData.isPrefixOf l &&
    (match l.drop litStarRailData.length with
     | c :: rest => matchesDot c && litUnity3d.isPrefixOf rest
     | [] => false)

/-- Greedy matching of `(.+)` at the start of `rest`: try the group length
`k` (at most `rest.length`), backtracking to shorter lengths. -/
def tryGroup (rest : List Char) : Nat → Option (List Char)
  | 0 => none
  | k + 1 =>
    let g := rest.take (k + 1)
    if g.all matchesDot && tailMatches (rest.drop (k + 1)) then some g
    else tryGroup rest k

/-- Match `(.+)/StarRail_Data/data.unity3d` at the start of `rest`,
returning the text captured by the greedy group. -/
def groupFrom (rest : List Char) : Option (List Char) :=
  tryGroup rest rest.length

/-- `regex.search` over the suffixes of a line, leftmost position first. -/
def searchFrom : List Char → Option (List Char)
  | [] => none
  | c :: rest =>
    if litLoading.isPrefixOf (c :: rest) then
      match groupFrom ((c :: rest).drop litLoading.length) with
      | some g => some g
      | none => searchFrom rest
    else searchFrom rest

/-- `regex.search(line)` followed by `match.group(1)`. -/
def regexSearchGroup (line : String) : Option String :=
  (searchFrom line.toList).map String.mk

/-- The loop `for line in fp: if (match := regex.search(line)): return
match.group(1)`. -/
def firstMatchInLines : List String → Option String
  | [] => none
  | line :: rest =>
    match regexSearchGroup line with
    | some g => some g
    | none => firstMatchInLines rest

/-- Fixed relative path of `Player.log` below the user profile. -/
def playerLogRel : String := "AppData/LocalLow/Cognosphere/Star Rail/Player.log"

/-- `get_game_path_windows()`: `None` without `USERPROFILE`, `None` when the
log file is missing, else the first captured group of the first matching log
line — note the result is a plain `str`, not a `Path`. -/
def get_game_path_windows (env : Env) : Option PyVal :=
  match env.userprofile with
  | none => none
  | some up =>
    let log_path := pjoin up playerLogRel
    match env.readLines log_path with
    | none => none
    | some lines => (firstMatchInLines lines).map PyVal.str

/-- `get_game_path_linux()`: read the launcher config JSON; return the
`global` path if it exists on disk, else the `china` path if it exists; a
`KeyError` anywhere in the nested lookups falls through to `None` (while a
`TypeError` propagates, the `except` clause only catches `KeyError`). -/
def get_game_path_linux (env : Env) : Except PyErr (Option PyVal) :=
  match env.hsrConfig with
  | none => .ok none
  | some config =>
    match jget config "game" with
    | .error e => .error e
    | .ok none => .ok none
    | .ok (some g) =>
      match jget g "path" with
      | .error e => .error e
      | .ok none => .ok none
      | .ok (some p) =>
        match jget p "global" with
        | .error e => .error e
        | .ok none => .ok none
        | .ok (some gv) =>
          match pyPathOf gv with
          | .error e => .error e
          | .ok global_path =>
            if env.pathExists global_path then
              .ok (some (.path global_path))
            else
              match jget p "china" with
              | .error e => .error e
              | .ok none => .ok none
              | .ok (some cv) =>
                match pyPathOf cv with
                | .error e => .error e
                | .ok china_path =>
                  if env.pathExists china_path then
                    .ok (some (.path china_path))
                  else
                    .ok none

/-- `get_game_path()`: the `GAME_PATH` override wins (returning its `Games`
subdirectory when that exists, else the override itself); otherwise dispatch
on the platform; `None` on unhandled platforms. -/
def get_game_path (env : Env) : Except PyErr (Option PyVal) :=
  match env.gamePathVar with
  | some gp =>
    let game_path := gp
    let sub_path := pjoin game_path "Games"
    .ok (some (.path (if env.pathExists sub_path then sub_path else game_path)))
  | none =>
    match env.platform with
    | .win32 => .ok (get_game_path_windows env)
    | .linux => get_game_path_linux env
    | _ => .ok none

/-! ### Version-directory ordering

`versions.sort(key=lambda p: p.name.split('.'))`: Python compares the key
lists lexicographically, element-wise by string comparison. -/

/-- Split a character list at every `'.'`, Python-style: `split`'s pieces in
order, keeping empty pieces (`''.split('.') == ['']`). -/
def splitDotsAux : List Char → List Char → List String
  | [], acc => [String.mk acc.reverse]
  | c :: rest, acc =>
    if c = '.' then String.mk acc.reverse :: splitDotsAux rest []
    else splitDotsAux rest (c :: acc)

/-- `name.split('.')`. -/
def splitKey (name : String) : List String := splitDotsAux name.toList []

/-- Strict lexicographic comparison of character lists by code point. -/
def charListLT : List Char → List Char → Bool
  | [], [] => false
  | [], _ :: _ => true
  | _ :: _, [] => false
  | a :: as, b :: bs => if a < b then true else if b < a then false else charListLT as bs

/-- Python's `<` on strings: lexicographic by code point. -/
def strLT (a b : String) : Bool := charListLT a.toList b.toList

/-- Python's `<=` on lists of strings: lexicographic, element-wise. -/
def lexLE : List String → List String → Bool
  | [], _ => true
  | _ :: _, [] => false
  | a :: as, b :: bs => if strLT a b then true else if strLT b a then false else lexLE as bs

/-- Sort-key comparison between directory entries. -/
def entryLE (a b : Entry) : Prop := lexLE (splitKey a.name) (splitKey b.name) = true

instance : DecidableRel entryLE := fun a b => by
  unfold entryLE; infer_instance

/-- The list-comprehension filter `p.is_dir() and '.' in p.name`. -/
def isVersionEntry (p : Entry) : Bool := p.isDir && p.name.toList.contains '.'

/-- `get_web_cache_path(game_path)`: list `game_path / 'StarRail_Data/webCaches/'`
(raising `FileNotFoundError` when that directory is missing), keep directory
entries whose name contains a dot, and return the last one in sort order, or
`None` if none qualify. -/
def get_web_cache_path (env : Env) (game_path : PyVal) : Except PyErr (Option String) :=
  match pyDiv game_path "StarRail_Data/webCaches/" with
  | .error e => .error e
  | .ok web_caches =>
    match env.listDir web_caches with
    | none => .error .fileNotFoundError
    | some entries =>
      let versions := entries.filter isVersionEntry
      if versions.isEmpty then
        .ok none
      else
        .ok ((List.insertionSort entryLE versions).getLast?.map
          (fun p => pjoin web_caches p.name))

/-- `get_cache_path()`: thread game path → web-cache path → cache data file;
`None` at each soft miss; on Windows, copy the file via PowerShell into the
data directory (returning `None` if the copy fails), else return it as is. -/
def get_cache_path (env : Env) : Except PyErr (Option String) :=
  match get_game_path env with
  | .error e => .error e
  | .ok gp? =>
    if pyFalsyOpt gp? then .ok none
    else
      match gp? with
      | none => .ok none
      | some game_path =>
        match get_web_cache_path env game_path with
        | .error e => .error e
        | .ok none => .ok none
        | .ok (some web_cache_path) =>
          let path := pjoin web_cache_path "Cache/Cache_Data/data_2"
          if ¬ env.pathExists path then
            .ok none
          else
            if env.platform = .win32 then
              match get_data_path env with
              | .error e => .error e
              | .ok dp =>
                let copy_path := pjoin dp "data_2"
                if env.powershellCopyOk path copy_path then
                  .ok (some copy_path)
                else
                  .ok none
            else
              .ok (some path)

/-! ### Port allocation -/

/-- The observable socket/HTTP state: `bindOk port` is whether binding a
listening socket to `localhost:port` succeeds; `probeOk port` is whether the
HTTP GET to `http://localhost:port/warp-journal` (timeout 0.1s) returns
without raising `URLError`/`HTTPError`. -/
structure PortEnv where
  bindOk : Nat → Bool
  probeOk : Nat → Bool

/-- `is_port_in_use(port)`: `False` iff the bind succeeds. -/
def is_port_in_use (env : PortEnv) (port : Nat) : Bool := !(env.bindOk port)

/-- Result of `get_usable_port()`: either a returned port number or process
termination through `panic`. -/
inductive PortResult where
  | port (n : Nat)
  | fatal (outcome : PanicOutcome)
deriving DecidableEq

/-- Statements of the `with urlopen(...)` block body, kept syntactically so
that the dead `panic` after the `return` stays visible in the model. -/
inductive BlockStmt where
  | ret (n : Nat)
  | panicStmt (message : String)

/-- Sequential execution of a statement list: a `return` ends the function,
skipping everything after it; a `panic` terminates the process. -/
def execBlock : List BlockStmt → Option PortResult
  | [] => none
  | .ret n :: _ => some (.port n)
  | .panicStmt m :: _ => some (.fatal (panic m))

/-- The body of the `with` block entered when the probe succeeds:
`return port` followed by `panic('Warp Journal is already running.')`. -/
def probeSuccessBody (port : Nat) : List BlockStmt :=
  [.ret port, .panicStmt "Warp Journal is already running."]

/-- The `for port in range(...)` loop of `get_usable_port`, over an explicit
candidate list: free port → return it; bound port whose probe succeeds →
execute the `with` block body; probe failure → next candidate; exhausted →
`panic('No suitable port found.')`. -/
def scanPorts (env : PortEnv) : List Nat → PortResult
  | [] => .fatal (panic "No suitable port found.")
  | port :: rest =>
    if !(is_port_in_use env port) then
      .port port
    else if env.probeOk port then
      match execBlock (probeSuccessBody port) with
      | some r => r
      | none => scanPorts env rest
    else
      scanPorts env rest

/-- `range(6193, 6193 + 10)`. -/
def portRange : List Nat := List.range' 6193 10

/-- `get_usable_port()`. -/
def get_usable_port (env : PortEnv) : PortResult := scanPorts env portRange

/-! ## Helper lemmas: port scan -/

theorem scanPorts_free (env : PortEnv) (p : Nat) (rest : List Nat)
    (h : env.bindOk p = true) : scanPorts env (p :: rest) = .port p := by
  simp [scanPorts, is_port_in_use, h]

theorem scanPorts_self (env : PortEnv) (p : Nat) (rest : List Nat)
    (hb : env.bindOk p = false) (hp : env.probeOk p = true) :
    scanPorts env (p :: rest) = .port p := by
  simp [scanPorts, is_port_in_use, hb, hp, execBlock, probeSuccessBody]

theorem scanPorts_foreign (env : PortEnv) (p : Nat) (rest : List Nat)
    (hb : env.bindOk p = false) (hp : env.probeOk p = false) :
    scanPorts env (p :: rest) = scanPorts env rest := by
  simp [scanPorts, is_port_in_use, hb, hp]

/-- On a strictly increasing candidate list, if every candidate below `k` is
occupied by a foreign, non-probe-answering process and `k` itself is either
free or answers the probe, the scan stops exactly at `k`. -/
theorem scanPorts_first (env : PortEnv) :
    ∀ l : List Nat, l.Pairwise (· < ·) → ∀ k, k ∈ l →
      (env.bindOk k = true ∨ (env.bindOk k = false ∧ env.probeOk k = true)) →
      (∀ j ∈ l, j < k → env.bindOk j = false ∧ env.probeOk j = false) →
      scanPorts env l = .port k
  | [], _, k, hk, _, _ => absurd hk (List.not_mem_nil k)
  | p :: rest, hpw, k, hk, hcase, hforeign => by
    rcases List.mem_cons.mp hk with rfl | hkrest
    · rcases hcase with hb | ⟨hb, hp⟩
      · exact scanPorts_free env k rest hb
      · exact scanPorts_self env k rest hb hp
    · have hpk : p < k := (List.pairwise_cons.mp hpw).1 k hkrest
      have hpf := hforeign p (List.mem_cons_self p rest) hpk
      rw [scanPorts_foreign env p rest hpf.1 hpf.2]
      exact scanPorts_first env rest (List.pairwise_cons.mp hpw).2 k hkrest hcase
        (fun j hj hjk => hforeign j (List.mem_cons_of_mem p hj) hjk)

/-- When every candidate is occupied and never answers the probe, the scan
falls off the end into the fatal `panic`. -/
theorem scanPorts_all_foreign (env : PortEnv) :
    ∀ l : List Nat, (∀ p ∈ l, env.bindOk p = false ∧ env.probeOk p = false) →
      scanPorts env l = .fatal (panic "No suitable port found.")
  | [], _ => rfl
  | p :: rest, hforeign => by
    have hp := hforeign p (List.mem_cons_self p rest)
    rw [scanPorts_foreign env p rest hp.1 hp.2]
    exact scanPorts_all_foreign env rest
      (fun j hj => hforeign j (List.mem_cons_of_mem p hj))

/-- The scan produces either a port or the `No suitable port found.` panic. -/
theorem scanPorts_cases (env : PortEnv) :
    ∀ l : List Nat, (∃ n, scanPorts env l = .port n) ∨
      scanPorts env l = .fatal (panic "No suitable port found.")
  | [] => Or.inr rfl
  | p :: rest => by
    cases hb : env.bindOk p with
    | true => exact Or.inl ⟨p, scanPorts_free env p rest hb⟩
    | false =>
      cases hp : env.probeOk p with
      | true => exact Or.inl ⟨p, scanPorts_self env p rest hb hp⟩
      | false =>
        rw [scanPorts_foreign env p rest hb hp]
        exact scanPorts_cases env rest

/-! ## Claim theorems: port allocation -/

/-- C2: `get_usable_port` iterates exactly the ten consecutive ports 6193
through 6202 in increasing order and, when every lower occupied candidate is
a foreign listener that does not answer the probe, returns the first
candidate on which the localhost TCP bind succeeds; in particular, with
6193–6196 bound by foreign non-probe-answering listeners and 6197 free, it
returns 6197. -/
theorem get_usable_port_range_and_first_free :
    portRange = [6193, 6194, 6195, 6196, 6197, 6198, 6199, 6200, 6201, 6202] ∧
    ∀ (env : PortEnv) (k : Nat), k ∈ portRange → env.bindOk k = true →
      (∀ j ∈ portRange, j < k → env.bindOk j = false ∧ env.probeOk j = false) →
      get_usable_port env = .port k :=
  ⟨by decide, fun env k hk hb hforeign =>
    scanPorts_first env portRange (by decide) k hk (Or.inl hb) hforeign⟩

/-- Witness for C2: ports 6193–6196 bound by foreign listeners that never
answer the probe, 6197 (and above) free: the scan returns 6197. -/
theorem get_usable_port_range_and_first_free_witness :
    get_usable_port ⟨fun p => decide (p ≥ 6197), fun _ => false⟩ = .port 6197 :=
  get_usable_port_range_and_first_free.2 ⟨fun p => decide (p ≥ 6197), fun _ => false⟩
    6197 (by decide) (by decide) (by decide)

/-- C3: for a candidate whose bind fails, a successful HTTP probe makes the
function return that same port (so, run against an unchanged environment in
which the first run's port still answers the probe, it returns that port
again), while a failed probe lets the scan continue with the next
candidate. -/
theorem get_usable_port_probe_reuse_or_continue :
    (∀ (env : PortEnv) (p : Nat) (rest : List Nat),
      is_port_in_use env p = true → env.probeOk p = true →
      scanPorts env (p :: rest) = .port p) ∧
    (∀ (env : PortEnv) (p : Nat) (rest : List Nat),
      is_port_in_use env p = true → env.probeOk p = false →
      scanPorts env (p :: rest) = scanPorts env rest) ∧
    (∀ (env : PortEnv) (k : Nat), k ∈ portRange →
      env.bindOk k = false → env.probeOk k = true →
      (∀ j ∈ portRange, j < k → env.bindOk j = false ∧ env.probeOk j = false) →
      get_usable_port env = .port k) := by
  refine ⟨fun env p rest hu hp => ?_, fun env p rest hu hp => ?_,
    fun env k hk hb hp hforeign => ?_⟩
  · exact scanPorts_self env p rest (by simpa [is_port_in_use] using hu) hp
  · exact scanPorts_foreign env p rest (by simpa [is_port_in_use] using hu) hp
  · exact scanPorts_first env portRange (by decide) k hk (Or.inr ⟨hb, hp⟩) hforeign

/-- Witness for C3: every bind fails, only port 6195 answers the probe (a
prior self instance): the scan skips 6193–6194 and returns 6195. -/
theorem get_usable_port_probe_reuse_or_continue_witness :
    get_usable_port ⟨fun _ => false, fun p => decide (p = 6195)⟩ = .port 6195 :=
  get_usable_port_probe_reuse_or_continue.2.2 ⟨fun _ => false, fun p => decide (p = 6195)⟩
    6195 (by decide) rfl (by decide) (by decide)

/-- C4: when all ten candidates are bound and none answers the probe,
`get_usable_port` ends in the fatal `panic('No suitable port found.')`:
the message is logged at error level, the dialog is shown, and the process
exits with status 1 — no port value is ever produced. -/
theorem get_usable_port_exhausted_fatal :
    ∀ env : PortEnv,
      (∀ p ∈ portRange, env.bindOk p = false ∧ env.probeOk p = false) →
      get_usable_port env =
        .fatal { loggedError := "No suitable port found.", dialogShown := true, exitCode := 1 } :=
  fun env hforeign => scanPorts_all_foreign env portRange hforeign

/-- Witness for C4: no bind ever succeeds and no probe ever answers: the
result is the fatal panic with exit status 1. -/
theorem get_usable_port_exhausted_fatal_witness :
    get_usable_port ⟨fun _ => false, fun _ => false⟩ =
      .fatal { loggedError := "No suitable port found.", dialogShown := true, exitCode := 1 } :=
  get_usable_port_exhausted_fatal ⟨fun _ => false, fun _ => false⟩ (by decide)

/-- C10: the `panic('Warp Journal is already running.')` placed after
`return port` inside the `with` block is dead code: executing the block
returns the port before reaching it, and no run of `get_usable_port` ever
terminates through that panic. -/
theorem get_usable_port_already_running_panic_unreachable :
    (∀ p : Nat, execBlock (probeSuccessBody p) = some (.port p)) ∧
    (∀ (env : PortEnv) (p : Nat) (rest : List Nat),
      is_port_in_use env p = true → env.probeOk p = true →
      scanPorts env (p :: rest) = .port p) ∧
    (∀ env : PortEnv,
      get_usable_port env ≠ .fatal (panic "Warp Journal is already running.")) := by
  refine ⟨fun p => rfl, fun env p rest hu hp => ?_, fun env h => ?_⟩
  · exact scanPorts_self env p rest (by simpa [is_port_in_use] using hu) hp
  · rcases scanPorts_cases env portRange with ⟨n, hn⟩ | hfatal
    · rw [get_usable_port, hn] at h
      exact PortResult.noConfusion h
    · rw [get_usable_port, hfatal] at h
      exact absurd (PortResult.fatal.inj h) (by decide)

/-- Witness for C10: a bound port whose probe succeeds returns that port
(rather than dying in the dead panic). -/
theorem get_usable_port_already_running_panic_unreachable_witness :
    scanPorts ⟨fun _ => false, fun _ => true⟩ [6193, 6194] = .port 6193 :=
  get_usable_port_already_running_panic_unreachable.2.1
    ⟨fun _ => false, fun _ => true⟩ 6193 [6194] rfl rfl

/-! ## Helper lemmas and claim theorems: game-path discovery -/

theorem firstMatchInLines_of_all_none :
    ∀ lines : List String, (∀ l ∈ lines, regexSearchGroup l = none) →
      firstMatchInLines lines = none
  | [], _ => rfl
  | line :: rest, h => by
    rw [firstMatchInLines, h line (List.mem_cons_self line rest)]
    exact firstMatchInLines_of_all_none rest (fun l hl => h l (List.mem_cons_of_mem line hl))

theorem firstMatchInLines_first :
    ∀ (pre : List String) (line : String) (post : List String) (g : String),
      (∀ l ∈ pre, regexSearchGroup l = none) → regexSearchGroup line = some g →
      firstMatchInLines (pre ++ line :: post) = some g
  | [], line, post, g, _, hline => by rw [List.nil_append, firstMatchInLines, hline]
  | p :: pre, line, post, g, hpre, hline => by
    rw [List.cons_append, firstMatchInLines, hpre p (List.mem_cons_self p pre)]
    exact firstMatchInLines_first pre line post g
      (fun l hl => hpre l (List.mem_cons_of_mem p hl)) hline

/-- A reference environment for concrete witnesses: nothing set, nothing on
disk. -/
def baseEnv : Env :=
  { platform := .linux, gamePathVar := none, userprofile := none, appdata := none,
    xdgDataHome := none, home := "/home/user", readLines := fun _ => none,
    hsrConfig := none, pathExists := fun _ => false, listDir := fun _ => none,
    mkdirFileConflict := fun _ => false, powershellCopyOk := fun _ _ => false }

/-- C6: with `GAME_PATH` set, `get_game_path` returns the `Games`
subdirectory beneath the override when that exists and otherwise the
override itself, and the result depends on nothing but the override value
and the existence of its `Games` subdirectory (no platform discovery, no
existence check on the override path itself). -/
theorem get_game_path_override :
    ∀ (env : Env) (gp : String), env.gamePathVar = some gp →
      (get_game_path env =
        .ok (some (.path (if env.pathExists (pjoin gp "Games") then pjoin gp "Games" else gp)))) ∧
      (∀ env' : Env, env'.gamePathVar = some gp →
        env'.pathExists (pjoin gp "Games") = env.pathExists (pjoin gp "Games") →
        get_game_path env' = get_game_path env) := by
  intro env gp h
  constructor
  · simp [get_game_path, h]
  · intro env' h' heq
    simp [get_game_path, h, h', heq]

/-- A concrete environment for the C6 witness: `GAME_PATH=/ov` and only
`/ov/Games` existing on disk. -/
def overrideEnv : Env :=
  { baseEnv with gamePathVar := some "/ov",
                 pathExists := fun p => decide (p = "/ov/Games") }

/-- Witness for C6: override `/ov` whose `Games` subdirectory exists: the
subdirectory is returned. -/
theorem get_game_path_override_witness :
    get_game_path overrideEnv = .ok (some (.path "/ov/Games")) :=
  ((get_game_path_override overrideEnv "/ov" rfl).1).trans (by decide)

/-- C5: the Windows locator returns null without `USERPROFILE`, null when
`Player.log` is missing, null when no line matches; otherwise the first
captured group of the first matching line, scanning top to bottom; and the
pattern captures `/opt/games/StarRail` from the documented log line. -/
theorem get_game_path_windows_scan :
    (∀ env : Env, env.userprofile = none → get_game_path_windows env = none) ∧
    (∀ (env : Env) (up : String), env.userprofile = some up →
      env.readLines (pjoin up playerLogRel) = none → get_game_path_windows env = none) ∧
    (∀ (env : Env) (up : String) (lines : List String), env.userprofile = some up →
      env.readLines (pjoin up playerLogRel) = some lines →
      (∀ l ∈ lines, regexSearchGroup l = none) → get_game_path_windows env = none) ∧
    (∀ (env : Env) (up : String) (pre post : List String) (line g : String),
      env.userprofile = some up →
      env.readLines (pjoin up playerLogRel) = some (pre ++ line :: post) →
      (∀ l ∈ pre, regexSearchGroup l = none) → regexSearchGroup line = some g →
      get_game_path_windows env = some (.str g)) ∧
    regexSearchGroup "Loading player data from /opt/games/StarRail/StarRail_Data/data.unity3d" =
      some "/opt/games/StarRail" := by
  refine ⟨fun env h => ?_, fun env up h hr => ?_, fun env up lines h hr hnone => ?_,
    fun env up pre post line g h hr hpre hline => ?_, by decide⟩
  · simp [get_game_path_windows, h]
  · simp [get_game_path_windows, h, hr]
  · simp [get_game_path_windows, h, hr, firstMatchInLines_of_all_none lines hnone]
  · simp [get_game_path_windows, h, hr, firstMatchInLines_first pre line post g hpre hline]

/-- A concrete environment for the C5 witness: Windows, `USERPROFILE` set,
and a `Player.log` with one non-matching line before the matching one. -/
def winLogEnv : Env :=
  { baseEnv with platform := .win32,
                 userprofile := some "C:/Users/u",
                 readLines := fun p =>
                   if p = pjoin "C:/Users/u" playerLogRel then
                     some ["not a matching line",
                       "Loading player data from /opt/games/StarRail/StarRail_Data/data.unity3d"]
                   else none }

/-- Witness for C5: a log with one non-matching line followed by the
documented `Loading player data` line yields `/opt/games/StarRail`. -/
theorem get_game_path_windows_scan_witness :
    get_game_path_windows winLogEnv = some (.str "/opt/games/StarRail") :=
  get_game_path_windows_scan.2.2.2.1 winLogEnv "C:/Users/u" ["not a matching line"] []
    "Loading player data from /opt/games/StarRail/StarRail_Data/data.unity3d"
    "/opt/games/StarRail" rfl (by decide) (by decide) (by decide)

/-- C7: on the Linux branch the locator returns the `global` region path
when it exists on disk, else the `china` region path when that exists, in
that fixed order; it returns null when the config file is absent, when any of
the nested keys is missing, or when neither candidate path exists on disk. -/
theorem get_game_path_linux_regions :
    ∀ env : Env, env.gamePathVar = none → env.platform = .linux →
      (env.hsrConfig = none → get_game_path env = .ok none) ∧
      (∀ cfg : Json, env.hsrConfig = some cfg →
        (jget cfg "game" = .ok none → get_game_path env = .ok none) ∧
        (∀ g : Json, jget cfg "game" = .ok (some g) →
          (jget g "path" = .ok none → get_game_path env = .ok none) ∧
          (∀ p : Json, jget g "path" = .ok (some p) →
            (jget p "global" = .ok none → get_game_path env = .ok none) ∧
            (∀ gp : String, jget p "global" = .ok (some (.str gp)) →
              (env.pathExists gp = true → get_game_path env = .ok (some (.path gp))) ∧
              (env.pathExists gp = false →
                (jget p "china" = .ok none → get_game_path env = .ok none) ∧
                (∀ cp : String, jget p "china" = .ok (some (.str cp)) →
                  (env.pathExists cp = true → get_game_path env = .ok (some (.path cp))) ∧
                  (env.pathExists cp = false → get_game_path env = .ok none))))))) := by
  intro env hvar hplat
  have hdispatch : get_game_path env = get_game_path_linux env := by
    simp [get_game_path, hvar, hplat]
  refine ⟨fun hcfg => ?_, fun cfg hcfg => ?_⟩
  · simp [hdispatch, get_game_path_linux, hcfg]
  refine ⟨fun hgame => ?_, fun g hgame => ?_⟩
  · simp [hdispatch, get_game_path_linux, hcfg, hgame]
  refine ⟨fun hpath => ?_, fun p hpath => ?_⟩
  · simp [hdispatch, get_game_path_linux, hcfg, hgame, hpath]
  refine ⟨fun hglob => ?_, fun gp hglob => ?_⟩
  · simp [hdispatch, get_game_path_linux, hcfg, hgame, hpath, hglob]
  refine ⟨fun hex => ?_, fun hnex => ?_⟩
  · simp [hdispatch, get_game_path_linux, hcfg, hgame, hpath, hglob, pyPathOf, hex]
  refine ⟨fun hchina => ?_, fun cp hchina => ?_⟩
  · simp [hdispatch, get_game_path_linux, hcfg, hgame, hpath, hglob, pyPathOf, hnex, hchina]
  refine ⟨fun hcex => ?_, fun hcnex => ?_⟩
  · simp [hdispatch, get_game_path_linux, hcfg, hgame, hpath, hglob, pyPathOf, hnex, hchina, hcex]
  · simp [hdispatch, get_game_path_linux, hcfg, hgame, hpath, hglob, pyPathOf, hnex, hchina, hcnex]

/-- A launcher configuration with both a `global` and a `china` install
path. -/
def launcherCfg : Json :=
  .obj [("game", .obj [("path", .obj [("global", .str "/gl"), ("china", .str "/cn")])])]

/-- A concrete environment for the C7 witness: Linux, launcher config
present, only the `china` path existing on disk. -/
def linuxChinaEnv : Env :=
  { baseEnv with hsrConfig := some launcherCfg,
                 pathExists := fun p => decide (p = "/cn") }

/-- Witness for C7: with only the `china` path existing on disk, the china
path is returned (global is checked first but skipped as absent). -/
theorem get_game_path_linux_regions_witness :
    get_game_path linuxChinaEnv = .ok (some (.path "/cn")) :=
  ((((((get_game_path_linux_regions linuxChinaEnv rfl rfl).2 launcherCfg rfl).2
    (.obj [("path", .obj [("global", .str "/gl"), ("china", .str "/cn")])]) rfl).2
    (.obj [("global", .str "/gl"), ("china", .str "/cn")]) rfl).2 "/gl" rfl).2
    (by decide)).2 "/cn" rfl |>.1 (by decide)

/-! ## Helper lemmas: the captured group is never empty -/

theorem tailMatches_nil : tailMatches [] = false := by decide

theorem tryGroup_ne_nil :
    ∀ (rest : List Char) (k : Nat) (g : List Char), tryGroup rest k = some g → g ≠ []
  | rest, 0, g, h => absurd h (by simp [tryGroup])
  | rest, k + 1, g, h => by
    rw [tryGroup] at h
    split at h
    · rename_i hcond
      intro hnil
      have hg : rest.take (k + 1) = g := Option.some.inj h
      have hrest : rest = [] := by
        rcases List.take_eq_nil_iff.mp (hg.trans hnil) with h0 | hr
        · exact absurd h0 (Nat.succ_ne_zero k)
        · exact hr
      rw [hrest] at hcond
      simp [tailMatches_nil] at hcond
    · exact tryGroup_ne_nil rest k g h

theorem searchFrom_ne_nil :
    ∀ (l g : List Char), searchFrom l = some g → g ≠ []
  | [], g, h => absurd h (by simp [searchFrom])
  | c :: rest, g, h => by
    rw [searchFrom] at h
    split at h
    · cases hgf : groupFrom ((c :: rest).drop litLoading.length) with
      | some g' =>
        rw [hgf] at h
        exact Option.some.inj h ▸ tryGroup_ne_nil _ _ g' hgf
      | none =>
        rw [hgf] at h
        exact searchFrom_ne_nil rest g h
    · exact searchFrom_ne_nil rest g h

theorem regexSearchGroup_ne_empty (line s : String)
    (h : regexSearchGroup line = some s) : s ≠ "" := by
  rw [regexSearchGroup] at h
  cases hsf : searchFrom line.toList with
  | none => rw [hsf] at h; exact absurd h (by simp)
  | some gl =>
    rw [hsf] at h
    have hs : s = String.mk gl := (Option.some.inj h).symm
    intro hempty
    have : gl = [] := congrArg String.data (hs ▸ hempty)
    exact searchFrom_ne_nil line.toList gl hsf this

theorem firstMatchInLines_ne_empty :
    ∀ (lines : List String) (s : String), firstMatchInLines lines = some s → s ≠ ""
  | [], s, h => absurd h (by simp [firstMatchInLines])
  | line :: rest, s, h => by
    rw [firstMatchInLines] at h
    cases hr : regexSearchGroup line with
    | some g =>
      rw [hr] at h
      exact Option.some.inj h ▸ regexSearchGroup_ne_empty line g hr
    | none =>
      rw [hr] at h
      exact firstMatchInLines_ne_empty rest s h

/-- Any non-null result of the Windows locator is a nonempty plain string. -/
theorem get_game_path_windows_shape (env : Env) (v : PyVal)
    (h : get_game_path_windows env = some v) : ∃ s, v = .str s ∧ s ≠ "" := by
  cases hup : env.userprofile with
  | none => simp [get_game_path_windows, hup] at h
  | some up =>
    cases hrl : env.readLines (pjoin up playerLogRel) with
    | none => simp [get_game_path_windows, hup, hrl] at h
    | some lines =>
      cases hfm : firstMatchInLines lines with
      | none => simp [get_game_path_windows, hup, hrl, hfm] at h
      | some g =>
        have hv : v = .str g := by
          simp [get_game_path_windows, hup, hrl, hfm] at h
          exact h.symm
        exact ⟨g, hv, firstMatchInLines_ne_empty lines g hfm⟩

/-- C9: the Windows log-scrape branch hands a plain string to the cache
locator, and `game_path / 'StarRail_Data/webCaches/'` on a string raises
`TypeError`: whenever the Windows locator finds a match, `get_cache_path`
errors out instead of producing a cache path. -/
theorem get_cache_path_windows_str_type_error :
    (∀ (env : Env) (v : PyVal), get_game_path_windows env = some v → ∃ s, v = .str s) ∧
    (∀ (env : Env) (g : String), env.gamePathVar = none → env.platform = .win32 →
      get_game_path_windows env = some (.str g) →
      get_cache_path env = .error .typeError) := by
  constructor
  · intro env v h
    obtain ⟨s, hs, _⟩ := get_game_path_windows_shape env v h
    exact ⟨s, hs⟩
  · intro env g hvar hplat hwin
    obtain ⟨s, hs, hne⟩ := get_game_path_windows_shape env (.str g) hwin
    have hg : g ≠ "" := by cases hs; exact hne
    have hdispatch : get_game_path env = .ok (some (.str g)) := by
      simp [get_game_path, hvar, hplat, hwin]
    simp [get_cache_path, hdispatch, pyFalsyOpt, hg, get_web_cache_path, pyDiv]

/-- Witness for C9: the concrete Windows environment whose log matches:
`get_cache_path` raises `TypeError`. -/
theorem get_cache_path_windows_str_type_error_witness :
    get_cache_path winLogEnv = .error .typeError :=
  get_cache_path_windows_str_type_error.2 winLogEnv "/opt/games/StarRail" rfl rfl (by decide)

/-! ## C8: soft misses in cache location -/

/-- An environment whose game directory exists but contains no
`StarRail_Data/webCaches` directory at all. -/
def missingRootEnv : Env := { baseEnv with gamePathVar := some "/games/SR" }

/-- Counterexample to C8 as stated: when the web-cache root itself does not
exist, `iterdir` raises `FileNotFoundError`, which nothing catches — the
result is an exception, not null. -/
theorem get_cache_path_missing_root_raises :
    get_web_cache_path missingRootEnv (.path "/games/SR") = .error .fileNotFoundError ∧
    get_cache_path missingRootEnv = .error .fileNotFoundError ∧
    get_cache_path missingRootEnv ≠ .ok none := by
  exact ⟨by decide, by decide, by decide⟩

/-- C8 (amended): when the web-cache root exists but holds no qualifying
version directory, `get_web_cache_path` returns null and `get_cache_path`
propagates the null; when the cache data file beneath the chosen version
directory is missing, `get_cache_path` returns null; but a missing web-cache
root raises an uncaught `FileNotFoundError` instead. -/
theorem cache_location_soft_misses_null :
    (∀ (env : Env) (g : String) (entries : List Entry),
      env.listDir (pjoin g "StarRail_Data/webCaches/") = some entries →
      entries.filter isVersionEntry = [] →
      get_web_cache_path env (.path g) = .ok none) ∧
    (∀ (env : Env) (g : String),
      env.listDir (pjoin g "StarRail_Data/webCaches/") = none →
      get_web_cache_path env (.path g) = .error .fileNotFoundError) ∧
    (∀ (env : Env) (gp : PyVal),
      get_game_path env = .ok (some gp) → pyFalsyOpt (some gp) = false →
      get_web_cache_path env gp = .ok none →
      get_cache_path env = .ok none) ∧
    (∀ (env : Env) (gp : PyVal) (wc : String),
      get_game_path env = .ok (some gp) → pyFalsyOpt (some gp) = false →
      get_web_cache_path env gp = .ok (some wc) →
      env.pathExists (pjoin wc "Cache/Cache_Data/data_2") = false →
      get_cache_path env = .ok none) := by
  refine ⟨fun env g entries hlist hfilter => ?_, fun env g hlist => ?_,
    fun env gp hgame hfalsy hwc => ?_, fun env gp wc hgame hfalsy hwc hex => ?_⟩
  · simp [get_web_cache_path, pyDiv, hlist, hfilter]
  · simp [get_web_cache_path, pyDiv, hlist]
  · simp [get_cache_path, hgame, hfalsy, hwc]
  · simp [get_cache_path, hgame, hfalsy, hwc, hex]

/-- An environment whose web-cache root exists but contains no entry that is
both a directory and dotted. -/
def noVersionsEnv : Env :=
  { baseEnv with gamePathVar := some "/games/SR",
                 listDir := fun p =>
                   if p = pjoin "/games/SR" "StarRail_Data/webCaches/" then
                     some [⟨"nodot", true⟩, ⟨"1.0", false⟩]
                   else none }

/-- Witness for C8 (amended): a webCaches directory holding only a dotless
directory and a dotted non-directory yields null end to end. -/
theorem cache_location_soft_misses_null_witness :
    get_cache_path noVersionsEnv = .ok none :=
  cache_location_soft_misses_null.2.2.1 noVersionsEnv (.path "/games/SR")
    (by decide) rfl (by decide)

/-! ## Helper lemmas: the version-key ordering is a total order -/

theorem charListLT_irrefl : ∀ l : List Char, charListLT l l = false
  | [] => rfl
  | c :: rest => by simp [charListLT, lt_self_iff_false, charListLT_irrefl rest]

theorem charListLT_trans :
    ∀ a b c : List Char, charListLT a b = true → charListLT b c = true →
      charListLT a c = true
  | [], [], _, h1, _ => by simp [charListLT] at h1
  | [], _ :: _, [], _, h2 => by simp [charListLT] at h2
  | [], _ :: _, _ :: _, _, _ => rfl
  | _ :: _, [], _, h1, _ => by simp [charListLT] at h1
  | _ :: _, _ :: _, [], _, h2 => by simp [charListLT] at h2
  | x :: xs, y :: ys, z :: zs, h1, h2 => by
    by_cases hxy : x < y
    · by_cases hyz : y < z
      · simp [charListLT, lt_trans hxy hyz]
      · by_cases hzy : z < y
        · simp [charListLT, not_lt_of_lt hzy, hzy] at h2
        · have hyzq : y = z := le_antisymm (le_of_not_lt hzy) (le_of_not_lt hyz)
          subst hyzq
          simp [charListLT, hxy]
    · by_cases hyx : y < x
      · simp [charListLT, not_lt_of_lt hyx, hyx] at h1
      · have hxyq : x = y := le_antisymm (le_of_not_lt hyx) (le_of_not_lt hxy)
        subst hxyq
        have h1' : charListLT xs ys = true := by
          simpa [charListLT, lt_self_iff_false] using h1
        by_cases hyz : x < z
        · simp [charListLT, hyz]
        · by_cases hzy : z < x
          · simp [charListLT, not_lt_of_lt hzy, hzy] at h2
          · have hyzq : x = z := le_antisymm (le_of_not_lt hzy) (le_of_not_lt hyz)
            subst hyzq
            have h2' : charListLT ys zs = true := by
              simpa [charListLT, lt_self_iff_false] using h2
            simp [charListLT, lt_self_iff_false, charListLT_trans xs ys zs h1' h2']

theorem charListLT_eq_of_not_lt :
    ∀ a b : List Char, charListLT a b = false → charListLT b a = false → a = b
  | [], [], _, _ => rfl
  | [], _ :: _, h1, _ => by simp [charListLT] at h1
  | _ :: _, [], _, h2 => by simp [charListLT] at h2
  | x :: xs, y :: ys, h1, h2 => by
    by_cases hxy : x < y
    · simp [charListLT, hxy] at h1
    · by_cases hyx : y < x
      · simp [charListLT, hyx] at h2
      · have hxyq : x = y := le_antisymm (le_of_not_lt hyx) (le_of_not_lt hxy)
        subst hxyq
        have h1' : charListLT xs ys = false := by
          simpa [charListLT, lt_self_iff_false] using h1
        have h2' : charListLT ys xs = false := by
          simpa [charListLT, lt_self_iff_false] using h2
        rw [charListLT_eq_of_not_lt xs ys h1' h2']

theorem strLT_irrefl (a : String) : strLT a a = false := charListLT_irrefl _

theorem strLT_trans {a b c : String} (h1 : strLT a b = true) (h2 : strLT b c = true) :
    strLT a c = true := charListLT_trans _ _ _ h1 h2

theorem strLT_eq_of_not_lt {a b : String} (h1 : strLT a b = false)
    (h2 : strLT b a = false) : a = b :=
  String.ext (charListLT_eq_of_not_lt a.toList b.toList h1 h2)

theorem strLT_asymm {a b : String} (h : strLT a b = true) : strLT b a = false := by
  cases hba : strLT b a with
  | false => rfl
  | true => exact absurd (strLT_trans h hba) (by simp [strLT_irrefl])

theorem lexLE_refl : ∀ a : List String, lexLE a a = true
  | [] => rfl
  | s :: rest => by simp [lexLE, strLT_irrefl, lexLE_refl rest]

theorem lexLE_total : ∀ a b : List String, lexLE a b = true ∨ lexLE b a = true
  | [], _ => Or.inl rfl
  | _ :: _, [] => Or.inr rfl
  | a :: as, b :: bs => by
    by_cases hab : strLT a b = true
    · exact Or.inl (by simp [lexLE, hab])
    · have hab' : strLT a b = false := by simpa using hab
      by_cases hba : strLT b a = true
      · exact Or.inr (by simp [lexLE, hba])
      · have hba' : strLT b a = false := by simpa using hba
        have habq : a = b := strLT_eq_of_not_lt hab' hba'
        subst habq
        rcases lexLE_total as bs with h | h
        · exact Or.inl (by simp [lexLE, strLT_irrefl, h])
        · exact Or.inr (by simp [lexLE, strLT_irrefl, h])

theorem lexLE_trans :
    ∀ a b c : List String, lexLE a b = true → lexLE b c = true → lexLE a c = true
  | [], _, _, _, _ => rfl
  | _ :: _, [], _, h1, _ => by simp [lexLE] at h1
  | _ :: _, _ :: _, [], _, h2 => by simp [lexLE] at h2
  | a :: as, b :: bs, c :: cs, h1, h2 => by
    by_cases hab : strLT a b = true
    · by_cases hbc : strLT b c = true
      · simp [lexLE, strLT_trans hab hbc]
      · by_cases hcb : strLT c b = true
        · simp [lexLE, (show strLT b c = false by simpa using hbc), hcb] at h2
        · have hbcq : b = c :=
            strLT_eq_of_not_lt (by simpa using hbc) (by simpa using hcb)
          subst hbcq
          simp [lexLE, hab]
    · by_cases hba : strLT b a = true
      · simp [lexLE, (show strLT a b = false by simpa using hab), hba] at h1
      · have habq : a = b :=
          strLT_eq_of_not_lt (by simpa using hab) (by simpa using hba)
        subst habq
        have h1' : lexLE as bs = true := by simpa [lexLE, strLT_irrefl] using h1
        by_cases hac : strLT a c = true
        · simp [lexLE, hac]
        · by_cases hca : strLT c a = true
          · simp [lexLE, (show strLT a c = false by simpa using hac), hca] at h2
          · have hacq : a = c :=
              strLT_eq_of_not_lt (by simpa using hac) (by simpa using hca)
            subst hacq
            have h2' : lexLE bs cs = true := by simpa [lexLE, strLT_irrefl] using h2
            simp [lexLE, strLT_irrefl, lexLE_trans as bs cs h1' h2']

theorem lexLE_antisymm :
    ∀ a b : List String, lexLE a b = true → lexLE b a = true → a = b
  | [], [], _, _ => rfl
  | [], _ :: _, _, h2 => by simp [lexLE] at h2
  | _ :: _, [], h1, _ => by simp [lexLE] at h1
  | a :: as, b :: bs, h1, h2 => by
    by_cases hab : strLT a b = true
    · simp [lexLE, strLT_asymm hab, hab] at h2
    · by_cases hba : strLT b a = true
      · simp [lexLE, (show strLT a b = false by simpa using hab), hba] at h1
      · have habq : a = b :=
          strLT_eq_of_not_lt (by simpa using hab) (by simpa using hba)
        subst habq
        have h1' : lexLE as bs = true := by simpa [lexLE, strLT_irrefl] using h1
        have h2' : lexLE bs as = true := by simpa [lexLE, strLT_irrefl] using h2
        rw [lexLE_antisymm as bs h1' h2']

theorem entryLE_refl (e : Entry) : entryLE e e := lexLE_refl _

instance : IsTotal Entry entryLE := ⟨fun _ _ => lexLE_total _ _⟩

instance : IsTrans Entry entryLE := ⟨fun _ _ _ => lexLE_trans _ _ _⟩

theorem mem_of_getLast?_eq {α : Type} :
    ∀ {l : List α} {e : α}, l.getLast? = some e → e ∈ l
  | [], e, h => by simp at h
  | [a], e, h => by
    simp at h
    exact h ▸ List.mem_singleton_self a
  | a :: b :: t, e, h => by
    rw [List.getLast?_cons_cons] at h
    exact List.mem_cons_of_mem a (mem_of_getLast?_eq h)

/-- The last element of a list sorted by `entryLE` dominates every member. -/
theorem sorted_getLast_le :
    ∀ l : List Entry, l.Sorted entryLE → ∀ e, l.getLast? = some e →
      ∀ x ∈ l, entryLE x e
  | [], _, e, h, _, _ => by simp at h
  | [a], _, e, h, x, hx => by
    simp at h hx
    subst h; subst hx
    exact entryLE_refl _
  | a :: b :: t, hs, e, h, x, hx => by
    rw [List.getLast?_cons_cons] at h
    rcases List.mem_cons.mp hx with rfl | hxt
    · exact (List.sorted_cons.mp hs).1 e (mem_of_getLast?_eq h)
    · exact sorted_getLast_le (b :: t) (List.sorted_cons.mp hs).2 e h x hxt

/-- The entry picked by `versions.sort(...); versions[-1]` exists, is one of
the version directories, and dominates all of them. -/
theorem web_cache_choice (entries : List Entry)
    (hne : entries.filter isVersionEntry ≠ []) :
    ∃ e, (List.insertionSort entryLE (entries.filter isVersionEntry)).getLast? = some e ∧
      e ∈ entries.filter isVersionEntry ∧
      ∀ x ∈ entries.filter isVersionEntry, entryLE x e := by
  have hlen : List.insertionSort entryLE (entries.filter isVersionEntry) ≠ [] := by
    intro hnil
    have hl := (List.perm_insertionSort entryLE (entries.filter isVersionEntry)).length_eq
    rw [hnil] at hl
    exact hne (List.length_eq_zero.mp hl.symm)
  obtain ⟨e, he⟩ := Option.isSome_iff_exists.mp (List.getLast?_isSome.mpr hlen)
  refine ⟨e, he, ?_, ?_⟩
  · exact (List.mem_insertionSort entryLE).mp (mem_of_getLast?_eq he)
  · intro x hx
    exact sorted_getLast_le _ (List.sorted_insertionSort entryLE _) e he x
      ((List.mem_insertionSort entryLE).mpr hx)

/-- C1: among qualifying version directories, `get_web_cache_path` returns
the one whose dot-split name is maximal under component-wise lexicographic
comparison (so `9.0` beats `10.0`), and — given distinct sort keys, as
distinct sibling directory names provide — the same maximum is chosen no
matter in which order the directory entries are listed. -/
theorem get_web_cache_path_max_version :
    lexLE (splitKey "10.0") (splitKey "9.0") = true ∧
    ∀ (env : Env) (g : String) (entries : List Entry),
      env.listDir (pjoin g "StarRail_Data/webCaches/") = some entries →
      entries.filter isVersionEntry ≠ [] →
      ((entries.filter isVersionEntry).map (fun e => splitKey e.name)).Nodup →
      ∃ e, e ∈ entries.filter isVersionEntry ∧
        (∀ x ∈ entries.filter isVersionEntry, entryLE x e) ∧
        get_web_cache_path env (.path g) =
          .ok (some (pjoin (pjoin g "StarRail_Data/webCaches/") e.name)) ∧
        (∀ (env' : Env) (entries' : List Entry),
          env'.listDir (pjoin g "StarRail_Data/webCaches/") = some entries' →
          entries'.Perm entries →
          get_web_cache_path env' (.path g) = get_web_cache_path env (.path g)) := by
  refine ⟨by decide, ?_⟩
  intro env g entries hlist hne hnodup
  obtain ⟨e, he, hmem, hmax⟩ := web_cache_choice entries hne
  have hcompute : get_web_cache_path env (.path g) =
      .ok (some (pjoin (pjoin g "StarRail_Data/webCaches/") e.name)) := by
    simp [get_web_cache_path, pyDiv, hlist, List.isEmpty_iff, hne, he]
  refine ⟨e, hmem, hmax, hcompute, ?_⟩
  intro env' entries' hlist' hperm
  have hpermf : (entries'.filter isVersionEntry).Perm (entries.filter isVersionEntry) :=
    hperm.filter _
  have hne' : entries'.filter isVersionEntry ≠ [] := by
    intro hnil
    have hl := hpermf.length_eq
    rw [hnil] at hl
    exact hne (List.length_eq_zero.mp hl.symm)
  obtain ⟨e', he', hmem', hmax'⟩ := web_cache_choice entries' hne'
  have hmeme' : e' ∈ entries.filter isVersionEntry := hpermf.mem_iff.mp hmem'
  have h1 : entryLE e' e := hmax e' hmeme'
  have h2 : entryLE e e' := hmax' e (hpermf.mem_iff.mpr hmem)
  have hkeq : splitKey e'.name = splitKey e.name := lexLE_antisymm _ _ h1 h2
  have hee : e' = e := List.inj_on_of_nodup_map hnodup hmeme' hmem hkeq
  have hcompute' : get_web_cache_path env' (.path g) =
      .ok (some (pjoin (pjoin g "StarRail_Data/webCaches/") e'.name)) := by
    simp [get_web_cache_path, pyDiv, hlist', List.isEmpty_iff, hne', he']
  rw [hcompute, hcompute', hee]

/-- A concrete environment for the C1 witness: a webCaches directory holding
version directories `10.0` and `9.0` (plus a dotless directory and a dotted
plain file that do not qualify). -/
def versionsEnv : Env :=
  { baseEnv with listDir := fun p =>
                   if p = pjoin "/g" "StarRail_Data/webCaches/" then
                     some [⟨"10.0", true⟩, ⟨"9.0", true⟩, ⟨"nodot", true⟩, ⟨"3.5", false⟩]
                   else none }

/-- Witness for C1: between `10.0` and `9.0`, the component-wise
lexicographic maximum `9.0` is selected. -/
theorem get_web_cache_path_max_version_witness :
    get_web_cache_path versionsEnv (.path "/g") =
      .ok (some "/g/StarRail_Data/webCaches/9.0") := by
  obtain ⟨e, hmem, hmax, hcomp, _⟩ := get_web_cache_path_max_version.2 versionsEnv "/g"
    [⟨"10.0", true⟩, ⟨"9.0", true⟩, ⟨"nodot", true⟩, ⟨"3.5", false⟩]
    (by decide) (by decide) (by decide)
  have hfilter : ([⟨"10.0", true⟩, ⟨"9.0", true⟩, ⟨"nodot", true⟩, ⟨"3.5", false⟩] :
      List Entry).filter isVersionEntry = [⟨"10.0", true⟩, ⟨"9.0", true⟩] := by decide
  rw [hfilter] at hmem hmax
  rcases List.mem_cons.mp hmem with rfl | h9
  · exact absurd (hmax ⟨"9.0", true⟩ (by decide)) (by decide)
  · have he : e = ⟨"9.0", true⟩ := List.mem_singleton.mp h9
    subst he
    exact hcomp.trans (by decide)

end WarpJournal
